import Mathlib

/-!
Verification of the reverse-proxy core of `ss-web-server`
(package `proxy`: `ProxyHandler`, path rewriting, upstream selection,
health probing, and the outbound-request director installed by `Handle`).

Modelling conventions:
* A Go string is modelled as its character sequence (`List Char`); Go's
  byte-based operations agree with the character-based model on the
  ASCII data handled here.
* A Go `map` is modelled as an association list whose lookup defaults to
  the zero value of the element type, matching Go map-read semantics.
* The `uint64` rotation cursor is modelled as a `Nat` kept below
  `2 ^ 64`; arithmetic is reduced modulo `2 ^ 64` exactly where the Go
  code performs wrapping `uint64` arithmetic.
* Network calls (`http.Client.Get`, `net.SplitHostPort`, `url.Parse`)
  are external library effects and appear as oracle parameters: a probe
  outcome is `Option Nat` (`none` for a transport error or timeout,
  `some code` for a response status), `net.SplitHostPort`'s host result
  is a function parameter, and `url.Parse` success is a boolean oracle.
* `performHealthChecks` spawns one fire-and-forget goroutine per
  address; a single goroutine's health-map write is modelled by
  `probeWrite`, applied to the shared map at some later, unspecified
  time.  `selectUpstreamServer` itself therefore changes only the
  cursor and the `lastHealthCheck` timestamp.
-/

/-- A Go string, as its character sequence. -/
abbrev GoStr := List Char

/-- `strings.TrimRight(s, "/")`: remove every trailing `'/'`. -/
def trimRightSlash (s : GoStr) : GoStr :=
  (List.dropWhile (fun c => c = '/') s.reverse).reverse

/-- `strings.TrimLeft(s, "/")`: remove every leading `'/'`. -/
def trimLeftSlash (s : GoStr) : GoStr :=
  List.dropWhile (fun c => c = '/') s

/-- `strings.TrimPrefix(s, pre)`: drop `pre` when it is a prefix, else return `s`. -/
def trimPfx (s pre : GoStr) : GoStr :=
  if pre.isPrefixOf s then s.drop pre.length else s

/-- `joinURLPath` (proxy.go): joins URL path segments without producing
double slashes. -/
def joinURLPath (a b : GoStr) : GoStr :=
  let a1 := trimRightSlash a
  let b1 := trimLeftSlash b
  if a1 = [] ∧ b1 = [] then "/".data
  else if a1 = [] then "/".data ++ b1
  else if b1 = [] then a1
  else a1 ++ "/".data ++ b1

/-- `(*ProxyHandler).rewritePath` (proxy.go): nginx-like `proxy_pass`
path rewriting.  `locPath` is `p.config.Path`, `originalPath` is the
inbound `r.URL.Path`, `upstreamPath` is `upstream.Path` of the parsed
target URL.  If the location ends with `"/"` the location prefix is
stripped and the remainder joined onto the upstream base path;
otherwise the path is forwarded unchanged. -/
def rewritePath (locPath originalPath upstreamPath : GoStr) : GoStr :=
  if List.isSuffixOf "/".data locPath then
    let trimmed := trimPfx originalPath locPath
    let baseUp := if upstreamPath = [] then "/".data else upstreamPath
    joinURLPath baseUp trimmed
  else originalPath

/-- `2 ^ 64`, the modulus of Go's wrapping `uint64` arithmetic. -/
def U64 : Nat := 2 ^ 64

/-- The mutable state of `ProxyHandler` (proxy.go).  `currentServer` is
the `uint64` rotation cursor (kept below `U64`); `healthStatus` is the
`map[string]bool`; `lastHealthCheck` is the last refresh time in
seconds. -/
structure ProxyHandler where
  upstreamServers : List GoStr
  currentServer : Nat
  healthStatus : List (GoStr × Bool)
  lastHealthCheck : Nat

/-- Go map read `m[k]` for a `map[string]bool`: the zero value `false`
when the key is absent. -/
def healthGet (m : List (GoStr × Bool)) (k : GoStr) : Bool :=
  (List.lookup k m).getD false

/-- Go map write `m[k] = v`. -/
def healthSet (m : List (GoStr × Bool)) (k : GoStr) (v : Bool) : List (GoStr × Bool) :=
  (k, v) :: m.filter (fun e => e.1 ≠ k)

/-- The scan loop of `selectUpstreamServer` (proxy.go):
`for i := 0; i < len(servers); i++` starting the index computation at
`(currentServer + i) % 2^64 % len(servers)` (wrapping `uint64`
addition), returning the first healthy server.  `fuel` counts the
remaining iterations, so the loop runs with `i = 0` and
`fuel = servers.length`. -/
def selectLoop (servers : List GoStr) (health : List (GoStr × Bool)) (cursor : Nat) :
    Nat → Nat → Option GoStr
  | _, 0 => none
  | i, fuel + 1 =>
    let server := servers.getD (((cursor + i) % U64) % servers.length) []
    if healthGet health server then some server
    else selectLoop servers health cursor (i + 1) fuel

/-- `(*ProxyHandler).selectUpstreamServer` (proxy.go).  When the last
refresh is more than 30s old the code fires `performHealthChecks`
(asynchronous goroutines, modelled as later `probeWrite` transitions)
and records the refresh time; then it scans for a healthy server
starting at the cursor and advances the cursor by one (wrapping);
when no server is healthy it falls back to plain round-robin at the
pre-advance cursor.  Pool emptiness is rejected by `Handle` before this
runs (an empty pool would divide by zero here, as in Go). -/
def selectUpstreamServer (now : Nat) (p : ProxyHandler) : GoStr × ProxyHandler :=
  let p1 := if 30 < now - p.lastHealthCheck then { p with lastHealthCheck := now } else p
  match selectLoop p1.upstreamServers p1.healthStatus p1.currentServer 0
      p1.upstreamServers.length with
  | some server => (server, { p1 with currentServer := (p1.currentServer + 1) % U64 })
  | none =>
    (p1.upstreamServers.getD (p1.currentServer % p1.upstreamServers.length) [],
     { p1 with currentServer := (p1.currentServer + 1) % U64 })

/-- The results of `n` consecutive `selectUpstreamServer` calls,
threading the handler state. -/
def selectCalls (now : Nat) (p : ProxyHandler) : Nat → List GoStr
  | 0 => []
  | n + 1 =>
    let r := selectUpstreamServer now p
    r.1 :: selectCalls now r.2 n

/-- Classification of one probe outcome, shared by the goroutine body of
`performHealthChecks` (`resp.StatusCode >= 200 && resp.StatusCode < 300`,
any transport error or timeout giving `false`) and by `HealthCheck`. -/
def probeResultHealthy : Option Nat → Bool
  | none => false
  | some code => 200 ≤ code && code < 300

/-- The health-map write performed by one `performHealthChecks`
goroutine for server `srv` (proxy.go): exactly one record, holding the
classification of the probe outcome. -/
def probeWrite (m : List (GoStr × Bool)) (srv : GoStr) (result : Option Nat) :
    List (GoStr × Bool) :=
  healthSet m srv (probeResultHealthy result)

/-- `(*ProxyHandler).HealthCheck` (proxy.go): builds a fresh
`results` map with one entry per configured address — `false` when
`url.Parse` fails (`parseOK`), `false` on transport error, otherwise the
2xx test — and returns it together with the (untouched) handler state. -/
def HealthCheck (parseOK : GoStr → Bool) (probe : GoStr → Option Nat)
    (p : ProxyHandler) : List (GoStr × Bool) × ProxyHandler :=
  (p.upstreamServers.map (fun s =>
    if ¬ parseOK s then (s, false)
    else (s, probeResultHealthy (probe s))), p)

/-- An `http.Header`, as an association list of canonical names to
values; `Get` returns `""` for an absent key. -/
abbrev Headers := List (GoStr × GoStr)

/-- `http.Header.Get`. -/
def headersGet (h : Headers) (k : GoStr) : GoStr := (List.lookup k h).getD []

/-- `http.Header.Set`. -/
def headersSet (h : Headers) (k v : GoStr) : Headers :=
  (k, v) :: h.filter (fun e => e.1 ≠ k)

/-- An `http.Request`, restricted to the fields the director reads or
writes.  Per `net/http`, the inbound `Host` header of a server-side
request is promoted to the `host` field and removed from the header
map, so `headers` never carries a `"Host"` key for inbound requests. -/
structure Request where
  host : GoStr
  remoteAddr : GoStr
  tls : Bool
  headers : Headers
  urlScheme : GoStr
  urlHost : GoStr
  urlPath : GoStr

/-- `config.LocationConfig`, restricted to the fields the proxy reads:
the location path, the `proxy_set_header` template map (iterated here in
list order) and the `proxy_pass_header` names. -/
structure LocationConfig where
  path : GoStr
  proxySet : List (GoStr × GoStr)
  proxyPassHeaders : List GoStr

/-- `getProto` (proxy.go): an existing `X-Forwarded-Proto` header wins,
else `https` for a TLS connection, else `http`. -/
def getProto (r : Request) : GoStr :=
  if headersGet r.headers "X-Forwarded-Proto".data ≠ [] then
    headersGet r.headers "X-Forwarded-Proto".data
  else if r.tls then "https".data
  else "http".data

/-- `strings.TrimSpace`. -/
def trimSpace (s : GoStr) : GoStr :=
  (List.dropWhile Char.isWhitespace (List.dropWhile Char.isWhitespace s).reverse).reverse

/-- `getClientIP` (proxy.go): the first comma-separated entry of
`X-Forwarded-For` (`strings.Split(forwarded, ",")[0]`, i.e. the run of
characters before the first comma), else `X-Real-IP`, else the host
part of `net.SplitHostPort(r.RemoteAddr)` (supplied as the oracle
`splitHostOf`). -/
def getClientIP (splitHostOf : GoStr → GoStr) (r : Request) : GoStr :=
  let forwarded := headersGet r.headers "X-Forwarded-For".data
  if forwarded ≠ [] then trimSpace (forwarded.takeWhile (fun c => c ≠ ','))
  else
    let realIP := headersGet r.headers "X-Real-IP".data
    if realIP ≠ [] then realIP
    else splitHostOf r.remoteAddr

/-- Fuelled worker for `strings.ReplaceAll`; each step either copies one
character or consumes a whole (non-empty) pattern occurrence, so fuel
`s.length` always suffices. -/
def replaceAllGo (pat rep : GoStr) : Nat → GoStr → GoStr
  | 0, s => s
  | _ + 1, [] => []
  | fuel + 1, c :: rest =>
    if pat ≠ [] ∧ pat.isPrefixOf (c :: rest) then
      rep ++ replaceAllGo pat rep fuel (rest.drop (pat.length - 1))
    else c :: replaceAllGo pat rep fuel rest

/-- `strings.ReplaceAll(s, pat, rep)` for the non-empty patterns used by
the proxy (`$remote_addr`, `$host`, `$scheme`). -/
def replaceAll (s pat rep : GoStr) : GoStr := replaceAllGo pat rep s.length s

/-- The `proxy.Director` closure installed by `(*ProxyHandler).Handle`
(proxy.go), applied to the cloned outbound request `req0`.  The original
single-host director's URL edits are immediately overwritten by lines
60–62, so only the final scheme/host/path assignments appear.  Steps, in
source order: URL rewrite; `clientIP := getClientIP(req)`; set
`X-Forwarded-Host` to `req.Header.Get("Host")`; set `X-Forwarded-Proto`
to `getProto(req)`; set `X-Real-IP`; render each `ProxySet` template by
sequentially replacing `$remote_addr`, `$host`, `$scheme`; copy each
non-empty `ProxyPassHeaders` entry from the inbound request `r`. -/
def director (cfg : LocationConfig) (splitHostOf : GoStr → GoStr)
    (remoteScheme remoteHost remotePath : GoStr) (r req0 : Request) : Request :=
  let req1 := { req0 with urlScheme := remoteScheme, urlHost := remoteHost,
                          urlPath := rewritePath cfg.path r.urlPath remotePath }
  let clientIP := getClientIP splitHostOf req1
  let req2 := { req1 with
    headers := headersSet req1.headers "X-Forwarded-Host".data
      (headersGet req1.headers "Host".data) }
  let req3 := { req2 with
    headers := headersSet req2.headers "X-Forwarded-Proto".data (getProto req2) }
  let req4 := { req3 with headers := headersSet req3.headers "X-Real-IP".data clientIP }
  let req5 := cfg.proxySet.foldl (fun rq hv =>
    let v1 := replaceAll hv.2 "$remote_addr".data clientIP
    let v2 := replaceAll v1 "$host".data (headersGet rq.headers "Host".data)
    let v3 := replaceAll v2 "$scheme".data (getProto rq)
    { rq with headers := headersSet rq.headers hv.1 v3 }) req4
  if cfg.proxyPassHeaders.length > 0 then
    cfg.proxyPassHeaders.foldl (fun rq h =>
      let v := headersGet r.headers h
      if v ≠ [] then { rq with headers := headersSet rq.headers h v } else rq) req5
  else req5

/-- Host part of `addr` for plain `host:port` addresses, standing in for
`net.SplitHostPort` in concrete evaluations. -/
def splitHostColon (a : GoStr) : GoStr := a.takeWhile (fun c => c ≠ ':')

/-- All-healthy three-server pool whose cursor sits at the top of the
`uint64` range. -/
def pC3 : ProxyHandler :=
  ⟨["a".data, "b".data, "c".data], 2 ^ 64 - 1,
   [("a".data, true), ("b".data, true), ("c".data, true)], 0⟩

/-- All-healthy two-server pool with cursor 1. -/
def pW3 : ProxyHandler :=
  ⟨["a".data, "b".data], 1, [("a".data, true), ("b".data, true)], 0⟩

/-- Pool whose only healthy server is `"h"`, cursor at the top of the
`uint64` range. -/
def pC4 : ProxyHandler :=
  ⟨["k".data, "b".data, "h".data], 2 ^ 64 - 1,
   [("k".data, false), ("b".data, false), ("h".data, true)], 0⟩

/-- Pool with `"k"` unhealthy and `"h"` healthy, cursor 0. -/
def pW4 : ProxyHandler :=
  ⟨["k".data, "h".data], 0, [("k".data, false), ("h".data, true)], 0⟩

/-- All-unhealthy two-server pool with cursor 1. -/
def pW5 : ProxyHandler :=
  ⟨["a".data, "b".data], 1, [("a".data, false), ("b".data, false)], 0⟩

/-- One-server pool with cursor 5. -/
def pW6 : ProxyHandler := ⟨["a".data], 5, [("a".data, true)], 0⟩

/-- An inbound request whose `Host` header is `example.com`: per
`net/http` it lives in the `host` field and is absent from the header
map. -/
def rIn : Request :=
  { host := "example.com".data, remoteAddr := "9.9.9.9:1234".data, tls := false,
    headers := [("Accept".data, "text/html".data)],
    urlScheme := "http".data, urlHost := "example.com".data,
    urlPath := "/api/users".data }

/-- A location with no templates and no pass-through headers. -/
def cfgIn : LocationConfig :=
  { path := "/api/".data, proxySet := [], proxyPassHeaders := [] }

/-- An inbound request whose client-supplied `X-Real-IP` value contains
the literal token `$scheme`. -/
def rT : Request :=
  { host := "example.com".data, remoteAddr := "9.9.9.9:1234".data, tls := false,
    headers := [("X-Real-IP".data, "1.2.3.4$scheme".data)],
    urlScheme := "http".data, urlHost := "example.com".data,
    urlPath := "/api/users".data }

/-- A location with a single header template `$remote_addr`. -/
def cfgT : LocationConfig :=
  { path := "/api/".data, proxySet := [("X-Custom-Header".data, "$remote_addr".data)],
    proxyPassHeaders := [] }

theorem getD_mem {α : Type} (l : List α) (n : Nat) (d : α) (h : n < l.length) :
    l.getD n d ∈ l := by
  induction l generalizing n with
  | nil => simp at h
  | cons x xs ih =>
    cases n with
    | zero => simp [List.getD]
    | succ m =>
      simp only [List.getD_cons_succ]
      exact List.mem_cons_of_mem x (ih m (by simpa using h))

theorem select_state_fields (now : Nat) (p : ProxyHandler) :
    (selectUpstreamServer now p).2.upstreamServers = p.upstreamServers ∧
    (selectUpstreamServer now p).2.healthStatus = p.healthStatus ∧
    (selectUpstreamServer now p).2.currentServer = (p.currentServer + 1) % U64 := by
  unfold selectUpstreamServer
  split <;> (dsimp only; split <;> simp)

theorem select_fst_some (now : Nat) (p : ProxyHandler) (s : GoStr)
    (hsel : selectLoop p.upstreamServers p.healthStatus p.currentServer 0
      p.upstreamServers.length = some s) :
    (selectUpstreamServer now p).1 = s := by
  unfold selectUpstreamServer
  split <;> (dsimp only; rw [hsel])

theorem select_fst_none (now : Nat) (p : ProxyHandler)
    (hsel : selectLoop p.upstreamServers p.healthStatus p.currentServer 0
      p.upstreamServers.length = none) :
    (selectUpstreamServer now p).1 =
      p.upstreamServers.getD (p.currentServer % p.upstreamServers.length) [] := by
  unfold selectUpstreamServer
  split <;> (dsimp only; rw [hsel])

theorem selectLoop_some_healthy (servers : List GoStr) (h : List (GoStr × Bool))
    (c : Nat) (i fuel : Nat) (s : GoStr)
    (hs : selectLoop servers h c i fuel = some s) : healthGet h s = true := by
  induction fuel generalizing i with
  | zero => simp [selectLoop] at hs
  | succ m ih =>
    simp only [selectLoop] at hs
    split at hs
    · cases hs
      assumption
    · exact ih (i + 1) hs

theorem selectLoop_none_all (servers : List GoStr) (h : List (GoStr × Bool))
    (c : Nat) (i fuel : Nat)
    (hn : selectLoop servers h c i fuel = none) :
    ∀ d < fuel,
      healthGet h (servers.getD (((c + (i + d)) % U64) % servers.length) []) = false := by
  induction fuel generalizing i with
  | zero => intro d hd; omega
  | succ m ih =>
    simp only [selectLoop] at hn
    split at hn
    · cases hn
    · intro d hd
      cases d with
      | zero =>
        simp only [Nat.add_zero]
        exact Bool.eq_false_iff.mpr ‹¬ _›
      | succ e =>
        have h2 := ih (i + 1) hn e (by omega)
        have harr : c + (i + 1 + e) = c + (i + (e + 1)) := by omega
        rw [harr] at h2
        exact h2

theorem selectLoop_first_healthy (servers : List GoStr) (h : List (GoStr × Bool))
    (c : Nat) (i m : Nat)
    (hh : healthGet h (servers.getD (((c + i) % U64) % servers.length) []) = true) :
    selectLoop servers h c i (m + 1) =
      some (servers.getD (((c + i) % U64) % servers.length) []) := by
  simp only [selectLoop, hh, if_true]

theorem selectLoop_allUnhealthy (servers : List GoStr) (h : List (GoStr × Bool)) (c : Nat)
    (hne : servers ≠ [])
    (hall : ∀ s ∈ servers, healthGet h s = false) (i fuel : Nat) :
    selectLoop servers h c i fuel = none := by
  induction fuel generalizing i with
  | zero => rfl
  | succ m ih =>
    have hlen : 0 < servers.length := List.length_pos.mpr hne
    have hmem : servers.getD (((c + i) % U64) % servers.length) [] ∈ servers :=
      getD_mem _ _ _ (Nat.mod_lt _ hlen)
    simp only [selectLoop, hall _ hmem]
    simpa using ih (i + 1)

theorem cover_mod (c j N : Nat) (hN : 0 < N) (hj : j < N) :
    (c + (j + (N - c % N)) % N) % N = j := by
  have hr : c % N < N := Nat.mod_lt _ hN
  have hdm := Nat.div_add_mod c N
  have hmul : N * (c / N + 1) = N * (c / N) + N := by ring
  have h1 : c + (j + (N - c % N)) = j + N * (c / N + 1) := by omega
  rw [Nat.add_mod_mod, h1, Nat.add_mul_mod_self_left, Nat.mod_eq_of_lt hj]

theorem select_fst_allHealthy (now : Nat) (p : ProxyHandler)
    (hne : p.upstreamServers ≠ [])
    (hh : ∀ s ∈ p.upstreamServers, healthGet p.healthStatus s = true)
    (hcur : p.currentServer < U64) :
    (selectUpstreamServer now p).1 =
      p.upstreamServers.getD (p.currentServer % p.upstreamServers.length) [] := by
  have hlen : 0 < p.upstreamServers.length := List.length_pos.mpr hne
  obtain ⟨m, hm⟩ : ∃ m, p.upstreamServers.length = m + 1 :=
    ⟨_, (Nat.succ_pred_eq_of_pos hlen).symm⟩
  have hmem : p.upstreamServers.getD
      (((p.currentServer + 0) % U64) % p.upstreamServers.length) [] ∈ p.upstreamServers :=
    getD_mem _ _ _ (Nat.mod_lt _ hlen)
  have hstep := selectLoop_first_healthy p.upstreamServers p.healthStatus
    p.currentServer 0 m (hh _ hmem)
  rw [← hm] at hstep
  rw [select_fst_some now p _ hstep, Nat.add_zero, Nat.mod_eq_of_lt hcur]

theorem selectCalls_rotation_aux (now : Nat) (n : Nat) : ∀ p : ProxyHandler,
    p.upstreamServers ≠ [] →
    (∀ s ∈ p.upstreamServers, healthGet p.healthStatus s = true) →
    p.currentServer + n ≤ U64 →
    selectCalls now p n = (List.range n).map (fun k =>
      p.upstreamServers.getD ((p.currentServer + k) % p.upstreamServers.length) []) := by
  induction n with
  | zero => intro p _ _ _; rfl
  | succ m ih =>
    intro p hne hh hb
    have hcur : p.currentServer < U64 := by omega
    have hfst := select_fst_allHealthy now p hne hh hcur
    obtain ⟨hsrv, hhs, hcursor⟩ := select_state_fields now p
    simp only [selectCalls]
    rw [hfst]
    by_cases hc1 : p.currentServer + 1 < U64
    · have hcv : (selectUpstreamServer now p).2.currentServer = p.currentServer + 1 := by
        rw [hcursor]; exact Nat.mod_eq_of_lt hc1
      have ih' := ih (selectUpstreamServer now p).2 (by rw [hsrv]; exact hne)
        (by rw [hhs, hsrv]; exact hh) (by rw [hcv]; omega)
      rw [ih', hsrv, hcv]
      rw [List.range_succ_eq_map, List.map_cons, List.map_map]
      simp only [Nat.add_zero, Function.comp]
      congr 1
      apply List.map_congr_left
      intro k _
      simp only [Function.comp_apply, Nat.succ_eq_add_one]
      have hidx : p.currentServer + 1 + k = p.currentServer + (k + 1) := by omega
      rw [hidx]
    · have hm0 : m = 0 := by omega
      subst hm0
      simp [selectCalls, List.range_succ]

/-- Claim C1: `rewritePath` satisfies the four specified vectors,
including the passthrough for a rule prefix without a trailing slash. -/
theorem rewritePath_spec_vectors :
    rewritePath "/api/".data "/api/users".data [] = "/users".data ∧
    rewritePath "/api/".data "/api/users".data "/v2".data = "/v2/users".data ∧
    rewritePath "/api".data "/api/users".data "/v2".data = "/api/users".data ∧
    rewritePath "/api/".data "/api/".data [] = "/".data := by
  decide

/-- Claim C2, counterexample: with rule prefix `/api/`, request path
`/api/` (empty remainder) and upstream base path `/v2/`, the rewrite
returns `/v2`, not the base path unchanged. -/
theorem rewritePath_emptyRemainder_cex :
    List.isSuffixOf "/".data "/api/".data = true ∧
    trimPfx "/api/".data "/api/".data = [] ∧
    rewritePath "/api/".data "/api/".data "/v2/".data = "/v2".data ∧
    rewritePath "/api/".data "/api/".data "/v2/".data ≠ "/v2/".data := by
  decide

/-- Claim C2 (amended): for every rule prefix ending in `/`, when
stripping the prefix from the request path yields an empty remainder,
`rewritePath` returns the upstream base path with its trailing slashes
removed — `/` when nothing remains (in particular the base is returned
unchanged exactly when it is nonempty and has no trailing slash). -/
theorem rewritePath_emptyRemainder (loc orig base : GoStr)
    (hsuf : List.isSuffixOf "/".data loc = true)
    (hempty : trimPfx orig loc = []) :
    rewritePath loc orig base =
      (if trimRightSlash (if base = [] then "/".data else base) = [] then "/".data
       else trimRightSlash (if base = [] then "/".data else base)) := by
  unfold rewritePath joinURLPath
  rw [hsuf]
  simp only [if_true, hempty]
  by_cases hb : trimRightSlash (if base = [] then "/".data else base) = [] <;>
    simp [hb, trimLeftSlash, List.dropWhile]

/-- Witness for C2's amended theorem at prefix `/api/`, path `/api/`,
base `/v2`. -/
theorem rewritePath_emptyRemainder_witness :
    List.isSuffixOf "/".data "/api/".data = true ∧
    trimPfx "/api/".data "/api/".data = [] ∧
    rewritePath "/api/".data "/api/".data "/v2".data = "/v2".data :=
  ⟨by decide, by decide,
   (rewritePath_emptyRemainder "/api/".data "/api/".data "/v2".data
     (by decide) (by decide)).trans (by decide)⟩

/-- Claim C3, counterexample: in the all-healthy pool `pC3` with initial
cursor `2 ^ 64 - 1`, the wrapping `uint64` cursor arithmetic makes the
three consecutive calls return the first address twice and never the
third, instead of each address exactly once. -/
theorem selectCalls_rotation_cex :
    (∀ s ∈ pC3.upstreamServers, healthGet pC3.healthStatus s = true) ∧
    selectCalls 0 pC3 pC3.upstreamServers.length = ["a".data, "a".data, "b".data] ∧
    "c".data ∉ selectCalls 0 pC3 pC3.upstreamServers.length := by
  decide

/-- Claim C3 (amended): for every all-healthy pool of size `N` and every
initial cursor value `c` with `c + N ≤ 2 ^ 64` (no `uint64` wraparound
during the sequence), `N` consecutive calls return the address at index
`(c + k) mod N` at call `k` — i.e. the pool rotated to start at index
`c mod N`, each address exactly once in address order. -/
theorem selectCalls_rotation_noWrap (now : Nat) (p : ProxyHandler)
    (hne : p.upstreamServers ≠ [])
    (hh : ∀ s ∈ p.upstreamServers, healthGet p.healthStatus s = true)
    (hnw : p.currentServer + p.upstreamServers.length ≤ U64) :
    selectCalls now p p.upstreamServers.length =
      (List.range p.upstreamServers.length).map (fun k =>
        p.upstreamServers.getD ((p.currentServer + k) % p.upstreamServers.length) []) ∧
    selectCalls now p p.upstreamServers.length =
      p.upstreamServers.rotate (p.currentServer % p.upstreamServers.length) := by
  have hmap := selectCalls_rotation_aux now p.upstreamServers.length p hne hh hnw
  have hN : 0 < p.upstreamServers.length := List.length_pos.mpr hne
  refine ⟨hmap, hmap.trans ?_⟩
  apply List.ext_getElem
  · simp
  · intro i h1 h2
    rw [List.getElem_map, List.getElem_range, List.getElem_rotate]
    have hlt : (p.currentServer + i) % p.upstreamServers.length <
        p.upstreamServers.length := Nat.mod_lt _ hN
    rw [List.getD_eq_getElem _ _ hlt]
    congr 1
    rw [Nat.add_mod_mod, Nat.add_comm]

/-- Witness for C3's amended theorem on the two-server pool `pW3` with
cursor 1: the calls return the pool rotated by one. -/
theorem selectCalls_rotation_noWrap_witness :
    selectCalls 0 pW3 pW3.upstreamServers.length = ["b".data, "a".data] :=
  ((selectCalls_rotation_noWrap 0 pW3 (by decide) (by decide) (by decide)).2).trans
    (by decide)

/-- Claim C4, counterexample: in pool `pC4` the address `k` is unhealthy
and `h` is healthy, yet with cursor `2 ^ 64 - 1` the wrapping scan never
reaches `h` and the round-robin fallback returns the unhealthy `k`. -/
theorem select_unhealthy_cex :
    healthGet pC4.healthStatus "k".data = false ∧
    "h".data ∈ pC4.upstreamServers ∧
    healthGet pC4.healthStatus "h".data = true ∧
    (selectUpstreamServer 0 pC4).1 = "k".data := by
  decide

/-- Claim C4 (amended): for every pool in which address `K` is marked
unhealthy while some address is marked healthy, and whose cursor `c`
satisfies `c + N ≤ 2 ^ 64` (no `uint64` wraparound during the scan),
`selectUpstreamServer` never returns `K`. -/
theorem select_avoids_unhealthy (now : Nat) (p : ProxyHandler) (K : GoStr)
    (hK : K ∈ p.upstreamServers)
    (hKu : healthGet p.healthStatus K = false)
    (hex : ∃ s ∈ p.upstreamServers, healthGet p.healthStatus s = true)
    (hnw : p.currentServer + p.upstreamServers.length ≤ U64) :
    (selectUpstreamServer now p).1 ≠ K := by
  cases hsel : selectLoop p.upstreamServers p.healthStatus p.currentServer 0
      p.upstreamServers.length with
  | some s =>
    rw [select_fst_some now p s hsel]
    intro hEq
    have hhl := selectLoop_some_healthy _ _ _ _ _ _ hsel
    rw [hEq, hKu] at hhl
    cases hhl
  | none =>
    exfalso
    obtain ⟨s, hsmem, hsh⟩ := hex
    obtain ⟨j, hj, rfl⟩ := List.getElem_of_mem hsmem
    have hN : 0 < p.upstreamServers.length := by omega
    have hall := selectLoop_none_all _ _ _ 0 _ hsel
    have hd : (j + (p.upstreamServers.length - p.currentServer % p.upstreamServers.length)) %
        p.upstreamServers.length < p.upstreamServers.length := Nat.mod_lt _ hN
    have h2 := hall _ hd
    rw [Nat.zero_add] at h2
    have hcd : p.currentServer +
        (j + (p.upstreamServers.length - p.currentServer % p.upstreamServers.length)) %
          p.upstreamServers.length < U64 := by omega
    rw [Nat.mod_eq_of_lt hcd, cover_mod _ _ _ hN hj] at h2
    rw [List.getD_eq_getElem _ _ hj] at h2
    rw [hsh] at h2
    cases h2

/-- Witness for C4's amended theorem on pool `pW4`: with `k` unhealthy
and `h` healthy the selection is not `k`. -/
theorem select_avoids_unhealthy_witness :
    healthGet pW4.healthStatus "k".data = false ∧
    healthGet pW4.healthStatus "h".data = true ∧
    (selectUpstreamServer 0 pW4).1 ≠ "k".data :=
  ⟨by decide, by decide,
   select_avoids_unhealthy 0 pW4 "k".data (by decide) (by decide)
     ⟨"h".data, by decide, by decide⟩ (by decide)⟩

/-- Claim C5: for every non-empty pool whose addresses are all marked
unhealthy, `selectUpstreamServer` still returns the address at the
pre-advance cursor position modulo the pool size. -/
theorem select_allUnhealthy_fallback (now : Nat) (p : ProxyHandler)
    (hne : p.upstreamServers ≠ [])
    (hall : ∀ s ∈ p.upstreamServers, healthGet p.healthStatus s = false) :
    (selectUpstreamServer now p).1 =
      p.upstreamServers.getD (p.currentServer % p.upstreamServers.length) [] :=
  select_fst_none now p (selectLoop_allUnhealthy _ _ _ hne hall 0 _)

/-- Witness for C5 on the all-unhealthy pool `pW5` with cursor 1: the
fallback returns the address at index `1 mod 2`. -/
theorem select_allUnhealthy_fallback_witness :
    (∀ s ∈ pW5.upstreamServers, healthGet pW5.healthStatus s = false) ∧
    (selectUpstreamServer 0 pW5).1 = "b".data :=
  ⟨by decide,
   (select_allUnhealthy_fallback 0 pW5 (by decide) (by decide)).trans (by decide)⟩

/-- Claim C6: for every non-empty pool and every health-map state, a
single `selectUpstreamServer` call advances the rotation cursor by
exactly one (as the wrapping `uint64` increment the code performs),
regardless of which address is returned. -/
theorem select_cursor_advance (now : Nat) (p : ProxyHandler)
    (hne : p.upstreamServers ≠ []) :
    (selectUpstreamServer now p).2.currentServer = (p.currentServer + 1) % U64 :=
  (select_state_fields now p).2.2

/-- Witness for C6 on the one-server pool `pW6` with cursor 5. -/
theorem select_cursor_advance_witness :
    (selectUpstreamServer 0 pW6).2.currentServer = 6 :=
  (select_cursor_advance 0 pW6 (by decide)).trans (by decide)

/-- Claim C7: the probe classification (shared by the background refresh
goroutines and by `HealthCheck`) is a total boolean — no error
propagates — and marks an address healthy exactly when the probe
obtained a response whose status lies in 200–299; every transport
error, timeout, or out-of-range status yields an unhealthy record,
and the goroutine's write stores exactly that classification. -/
theorem probe_healthy_iff (r : Option Nat) (m : List (GoStr × Bool)) (srv : GoStr) :
    (probeResultHealthy r = true ↔ ∃ code, r = some code ∧ 200 ≤ code ∧ code < 300) ∧
    healthGet (probeWrite m srv r) srv = probeResultHealthy r := by
  constructor
  · cases r with
    | none => simp [probeResultHealthy]
    | some code => simp [probeResultHealthy]
  · simp [probeWrite, healthSet, healthGet, List.lookup]

/-- Claim C8, code bug: the director sets `X-Forwarded-Host` from
`req.Header.Get("Host")`, but `net/http` promotes the inbound `Host`
header to `Request.Host` and removes it from the header map, so the
outbound `X-Forwarded-Host` is the empty string and never equals the
inbound `Host` header (here `example.com`). -/
theorem xForwardedHost_empty_bug :
    rIn.host = "example.com".data ∧
    headersGet (director cfgIn splitHostColon "http".data "10.0.0.1:8080".data []
      rIn rIn).headers "X-Forwarded-Host".data = [] ∧
    headersGet (director cfgIn splitHostColon "http".data "10.0.0.1:8080".data []
      rIn rIn).headers "X-Forwarded-Host".data ≠ rIn.host := by
  decide

/-- Claim C9: template rendering is three sequential global
replacements (`$remote_addr`, then `$host`, then `$scheme`), so a
client-supplied `X-Real-IP` of `1.2.3.4$scheme` substituted for
`$remote_addr` is itself rewritten by the later `$scheme` pass: the
rendered header is `1.2.3.4http`, the effective scheme spliced inside
the client-controlled address. -/
theorem headerTemplate_sequential :
    cfgT.proxySet = [("X-Custom-Header".data, "$remote_addr".data)] ∧
    headersGet rT.headers "X-Real-IP".data = "1.2.3.4$scheme".data ∧
    headersGet (director cfgT splitHostColon "http".data "10.0.0.1:8080".data []
      rT rT).headers "X-Custom-Header".data = "1.2.3.4http".data := by
  decide

/-- Claim C10: `HealthCheck` returns a freshly built address-to-healthy
mapping (one entry per configured address, from the parse check and the
probe classification) and leaves the handler state — health map, cursor
and last-probe timestamp — exactly as it was. -/
theorem healthCheck_frame (parseOK : GoStr → Bool) (probe : GoStr → Option Nat)
    (p : ProxyHandler) :
    (HealthCheck parseOK probe p).2.healthStatus = p.healthStatus ∧
    (HealthCheck parseOK probe p).2.currentServer = p.currentServer ∧
    (HealthCheck parseOK probe p).2.lastHealthCheck = p.lastHealthCheck ∧
    (HealthCheck parseOK probe p).1 = p.upstreamServers.map (fun s =>
      if ¬ parseOK s then (s, false) else (s, probeResultHealthy (probe s))) :=
  ⟨rfl, rfl, rfl, rfl⟩
